import Mathlib

/-!
# Verification of the DeepSeek agent core (agent orchestrator + sandboxed tool executor)

A shallow embedding, in Lean 4, of the security- and correctness-relevant parts of
the `deepseek-mcp-server` repository:

* `src/tools.ts` — the path sandbox guard (`validatePath`), the `ToolExecutor`
  dispatch (`execute`) and the individual tool handlers (`readFile`, `writeFile`,
  `editFile`, `runBash`, `globFiles`, `grepFiles`, `listDir`, `webSearch`);
* `src/agent.ts` — the agentic loop (`DeepSeekAgent.run`), its per-turn tool-call
  processing, progress extraction (`extractProgress`) and the retry/backoff policy
  (`callApiWithRetry`).

Modelling conventions, stated once here:

* JavaScript strings are Lean `String`s (`slice(0, n)` becomes `String.take n`;
  the UTF-16 vs. codepoint distinction is irrelevant to every property below).
* A thrown JS exception / rejected promise is `Except.error` carrying the error
  message (`JsError := String`); a normal return is `Except.ok`.
* The filesystem is a flat map from resolved absolute path strings to file
  contents, plus a list of directory paths (`FS`).  External effects the claims
  do not inspect (the `glob` library, the Brave search collaborator, the child
  process spawned by `execSync`, `JSON.parse`, regex matching and directory
  listing formatting) are oracles supplied in a `ToolEnv` / loop environment and
  universally quantified in the theorems.
* Node `path.resolve` on POSIX is modelled by `posixResolve`; the executor's
  `base` is always absolute (the constructor sets `this.base = resolve(workingDir)`),
  and all theorems use absolute bases.
-/

namespace DeepSeekMCP

/-- A JavaScript error / promise-rejection reason, identified by its message. -/
abbrev JsError := String

/-! ## String primitives

JS `String.prototype.includes` and `String.prototype.replace` with a *string*
pattern (replace-first-occurrence, leftmost match).  These are the semantics of
the calls in `editFile` (`content.includes(oldString)`,
`content.replace(oldString, newString)`) and in the retry classifier
(`errorMsg.includes("rate")` …). -/

/-- Index of the leftmost occurrence of `pat` in `s` (as lists of characters),
`none` if `pat` does not occur.  The empty pattern matches at index 0, exactly
as in JS (`"ab".includes("") === true`, `"ab".replace("", "x") === "xab"`). -/
def firstMatchIdx (pat : List Char) : List Char → Option Nat
  | [] => if pat.isPrefixOf ([] : List Char) then some 0 else none
  | c :: t =>
    if pat.isPrefixOf (c :: t) then some 0
    else (firstMatchIdx pat t).map (· + 1)

/-- JS `s.includes(pat)`. -/
def strIncludes (s pat : String) : Bool :=
  (firstMatchIdx pat.data s.data).isSome

/-- The backquote character (code 96), written by code point to keep source
scanning simple. -/
def backquoteChar : Char := Char.ofNat 96

/-- The single-quote character (code 39), written by code point likewise. -/
def singleQuoteChar : Char := Char.ofNat 39

/-- ECMAScript `GetSubstitution` for a *string* pattern (no capture groups):
expand the `$`-escapes of the replacement text — `$$` is a literal `$`, `$&`
the matched substring (for a string pattern, the pattern itself), `$` followed
by backquote the text preceding the match, `$` followed by single quote the
text following it; any other `$`-sequence (including a trailing lone `$`) is
passed through literally.  JS `String.prototype.replace` applies this even
when the pattern is a plain string. -/
def substRepl (matched before after : List Char) : List Char → List Char
  | [] => []
  | c :: t =>
    if c = '$' then
      match t with
      | [] => ['$']
      | d :: t' =>
        if d = '$' then '$' :: substRepl matched before after t'
        else if d = '&' then matched ++ substRepl matched before after t'
        else if d = backquoteChar then before ++ substRepl matched before after t'
        else if d = singleQuoteChar then after ++ substRepl matched before after t'
        else '$' :: d :: substRepl matched before after t'
    else c :: substRepl matched before after t

/-- JS `s.replace(pat, rep)` with a string pattern: replace the leftmost
occurrence of `pat` only, inserting `rep` *after `GetSubstitution`*
(`substRepl`); if `pat` does not occur, return `s` unchanged. -/
def strReplaceFirst (s pat rep : String) : String :=
  match firstMatchIdx pat.data s.data with
  | none => s
  | some i =>
    String.mk (s.data.take i ++
      substRepl pat.data (s.data.take i) (s.data.drop (i + pat.data.length)) rep.data ++
      s.data.drop (i + pat.data.length))

/-- JS `s.toLowerCase()` (ASCII case folding suffices for the fixed keyword set). -/
def toLowerStr (s : String) : String :=
  String.mk (s.data.map Char.toLower)

/-- JS `s.startsWith(pre)`. -/
def strStartsWith (s pre : String) : Bool :=
  pre.data.isPrefixOf s.data

/-- JS `s.slice(0, n)`. -/
def strTake (s : String) (n : Nat) : String :=
  String.mk (s.data.take n)

/-! ## Path model (Node `path` on POSIX) -/

/-- Split a character list into its `/`-separated segments (`cur` is the
reversed segment under construction). -/
def splitSlash : List Char → List Char → List (List Char)
  | [], cur => [cur.reverse]
  | c :: t, cur =>
    if c = '/' then cur.reverse :: splitSlash t []
    else splitSlash t (c :: cur)

/-- Normalisation core of `path.resolve`: fold the segments, dropping empty
and `.` segments and letting `..` pop the last kept segment (at the root,
`..` is dropped). -/
def normStack (segs : List (List Char)) : List (List Char) :=
  segs.foldl
    (fun acc seg =>
      if seg = [] ∨ seg = ['.'] then acc
      else if seg = ['.', '.'] then acc.dropLast
      else acc ++ [seg])
    []

/-- Rejoin normalised segments with `/`. -/
def joinSegs : List (List Char) → List Char
  | [] => []
  | [s] => s
  | s :: t => s ++ '/' :: joinSegs t

/-- `path.resolve` applied to a single absolute path: canonical absolute form,
no trailing slash except for the root itself. -/
def normAbs (s : String) : String :=
  String.mk ('/' :: joinSegs (normStack (splitSlash s.data [])))

/-- Node `path.resolve(base, target)` on POSIX, for an absolute `base`:
an absolute `target` stands alone, a relative one is joined onto `base`;
either way the result is canonicalised. -/
def posixResolve (base target : String) : String :=
  if strStartsWith target "/" then normAbs target
  else normAbs (base ++ "/" ++ target)

/-- `validatePath` from `src/tools.ts` (lines 141–151): resolve the target
against the sandbox base, resolve the base, and reject unless the resolved
target *string-prefix*-matches the resolved base (`resolved.startsWith(baseResolved)`).
A rejection is the thrown `Path escape attempt blocked` error, caught at the
executor's dispatch boundary. -/
def validatePath (targetPath base : String) : Except JsError String :=
  let resolved := posixResolve base targetPath
  let baseResolved := normAbs base
  if strStartsWith resolved baseResolved then Except.ok resolved
  else Except.error ("Path escape attempt blocked: " ++ targetPath)

/-- Modelled from the spec: the *path-segment-aware* containment relation the
spec demands of the sandbox guard ("path-segment-aware, not naive string
prefix — `/base2` must not satisfy a `/base` boundary check").  A canonical
absolute `target` lies within a canonical absolute `base` iff the segment list
of `base` is a prefix of the segment list of `target` by whole segments. -/
def segmentWithin (base target : String) : Bool :=
  (normStack (splitSlash base.data [])).isPrefixOf (normStack (splitSlash target.data []))

/-! ## Filesystem model -/

/-- Assoc-list update: replace the binding for `k`, or append a fresh one.
Models `writeFileSync` on the flat path-to-contents map. -/
def setFile : List (String × String) → String → String → List (String × String)
  | [], k, v => [(k, v)]
  | (k', v') :: t, k, v =>
    if k' = k then (k, v) :: t else (k', v') :: setFile t k v

/-- Assoc-list lookup by path. -/
def lookupFile : List (String × String) → String → Option String
  | [], _ => none
  | (k', v') :: t, k => if k' = k then some v' else lookupFile t k

/-- The observable filesystem: regular files (resolved absolute path ↦ contents)
and directories.  Directory creation by `write_file` is not tracked — no claim
inspects it. -/
structure FS where
  files : List (String × String)
  dirs : List String
  deriving Repr, DecidableEq

/-- `existsSync`: true for a modelled file or directory. -/
def existsS (fs : FS) (p : String) : Bool :=
  (lookupFile fs.files p).isSome || fs.dirs.contains p

/-- Node's `TypeError` when a path API receives `undefined` instead of a string
(`resolve(base, undefined)`, reached when a tool call omits a required string
argument; the exact wording is irrelevant to every claim). -/
def pathTypeError : JsError :=
  "The \x22path\x22 argument must be of type string. Received undefined"

/-! ## Tool handlers (`src/tools.ts`)

Each private method of `ToolExecutor` becomes a function returning
`Except JsError …`: `Except.error` is a throw escaping the method (caught — or
not — at the dispatch boundary, see `execute`).  A missing required string
argument is `none` (JS `undefined` after the unchecked cast in `execute`). -/

/-- `ToolExecutor.readFile` (lines 218–228). -/
def readFile (fs : FS) (base : String) (path? : Option String) : Except JsError String :=
  match path? with
  | none => Except.error pathTypeError
  | some p =>
    (validatePath p base).bind fun fp =>
      if ¬ existsS fs fp then Except.ok ("ERROR: File not found: " ++ p)
      else if fs.dirs.contains fp then Except.ok ("ERROR: Not a file: " ++ p)
      else Except.ok ((lookupFile fs.files fp).getD "")

/-- `ToolExecutor.writeFile` (lines 230–238): validate, create parent
directories (untracked), overwrite, return `"OK"`.  `writeFileSync` with
`undefined` content throws a `TypeError`. -/
def writeFile (fs : FS) (base : String) (path? content? : Option String) :
    Except JsError (String × FS) :=
  match path? with
  | none => Except.error pathTypeError
  | some p =>
    (validatePath p base).bind fun fp =>
      match content? with
      | none =>
        Except.error "The \x22data\x22 argument must be of type string. Received undefined"
      | some c => Except.ok ("OK", ⟨setFile fs.files fp c, fs.dirs⟩)

/-- `ToolExecutor.editFile` (lines 240–252): validate, check existence, read,
require `content.includes(oldString)`, then `content.replace(old, new)`
(first occurrence) and write back.  Reading a directory path throws `EISDIR`. -/
def editFile (fs : FS) (base : String) (path? : Option String) (old new : String) :
    Except JsError (String × FS) :=
  match path? with
  | none => Except.error pathTypeError
  | some p =>
    (validatePath p base).bind fun fp =>
      if ¬ existsS fs fp then Except.ok ("ERROR: File not found: " ++ p, fs)
      else if fs.dirs.contains fp then
        Except.error "EISDIR: illegal operation on a directory, read"
      else
        let content := (lookupFile fs.files fp).getD ""
        if ¬ strIncludes content old then
          Except.ok ("ERROR: old_string not found in file", fs)
        else
          Except.ok ("OK", ⟨setFile fs.files fp (strReplaceFirst content old new), fs.dirs⟩)

/-- Outcome of the `execSync` call in `runBash`, as observed through its
`try`/`catch`: normal output, a timeout kill (`e.killed`), a non-zero exit
carrying captured output and status, or any other synchronous failure. -/
inductive BashOutcome where
  | success (out : String)
  | killed
  | exitNonzero (stdout stderr : String) (status : Option Int)
  | otherFailure (msg : String)
  deriving Repr, DecidableEq

/-- `bash` timeouts from `ToolsConfig` (`config.bash`). -/
structure BashConfig where
  defaultTimeout : Nat
  maxTimeout : Nat
  deriving Repr, DecidableEq

/-- `ToolsConfig` (seconds / result caps), as the executor receives it. -/
structure ToolsConfig where
  bash : BashConfig
  globMaxResults : Nat
  grepMaxResults : Nat
  deriving Repr, DecidableEq

/-- Oracles for the executor's external collaborators.  `bash` maps a command
and the *effective timeout in seconds* to the `execSync` outcome; `glob` is the
`glob` library call (it may reject — e.g. `glob(undefined)` throws a
`TypeError` inside the async handler); `webSearch` is the search-and-synthesize
collaborator; `grepImpl` / `listDirImpl` stand for the regex-compile-and-walk
and the entry-formatting code, each of which catches or cannot raise its own
internal errors and therefore yields a result `Except` at the handler level. -/
structure ToolEnv where
  bash : String → Nat → BashOutcome
  glob : Option String → Except JsError (List String)
  webSearch : Option String → Except JsError String
  grepImpl : Option String → String → Except JsError String
  listDirImpl : String → Except JsError String

/-- `ToolExecutor.runBash` (lines 254–279): effective timeout =
`Math.min(timeout ?? defaultTimeout, maxTimeout)`; on a timeout kill the
result is the `ERROR: Command timed out after N seconds` string; on non-zero
exit, `[Exit code: s]` plus captured output; output capped at 50,000
characters.  Its internal `try`/`catch` makes the handler total. -/
def runBash (env : ToolEnv) (cfg : ToolsConfig) (cmd? : Option String)
    (timeout? : Option Nat) : String :=
  let effectiveTimeout := Nat.min (timeout?.getD cfg.bash.defaultTimeout) cfg.bash.maxTimeout
  match cmd? with
  | none => "ERROR: TypeError: The \x22file\x22 argument must be of type string."
  | some cmd =>
    match env.bash cmd effectiveTimeout with
    | BashOutcome.success out => strTake out 50000
    | BashOutcome.killed =>
      "ERROR: Command timed out after " ++ toString effectiveTimeout ++ " seconds"
    | BashOutcome.exitNonzero so se status =>
      strTake ("[Exit code: " ++ toString (status.getD 1) ++ "]\n" ++ so ++ se) 50000
    | BashOutcome.otherFailure m => "ERROR: " ++ m

/-- `ToolExecutor.globFiles` (lines 281–291), an `async` handler: await the
`glob` library (note: *no* `validatePath` anywhere in this handler), then
either the `No files found` text or the cap-then-sort-then-join of the matches.
A rejection of the library call rejects the handler's promise. -/
def globFiles (env : ToolEnv) (cfg : ToolsConfig) (pat? : Option String) :
    Except JsError String :=
  (env.glob pat?).bind fun ms =>
    if ms.isEmpty then Except.ok "No files found"
    else Except.ok (String.intercalate "\n"
      ((ms.take cfg.globMaxResults).mergeSort (· ≤ ·)))

/-- `ToolExecutor.grepFiles` (lines 293–356): validate `searchPath ?? "."`,
check existence, then regex compilation and the recursive walk (modelled by
the `grepImpl` oracle — all of that code returns strings or swallows errors). -/
def grepFiles (env : ToolEnv) (fs : FS) (base : String)
    (pat? path? : Option String) : Except JsError String :=
  (validatePath (path?.getD ".") base).bind fun tp =>
    if ¬ existsS fs tp then
      Except.ok ("ERROR: Path not found: " ++ path?.getD "undefined")
    else env.grepImpl pat? tp

/-- `ToolExecutor.listDir` (lines 358–381): validate, check existence and
directory-ness, then format the (capped, sorted, tagged) entries (oracle). -/
def listDir (env : ToolEnv) (fs : FS) (base : String) (path? : Option String) :
    Except JsError String :=
  match path? with
  | none => Except.error pathTypeError
  | some p =>
    (validatePath p base).bind fun dp =>
      if ¬ existsS fs dp then Except.ok ("ERROR: Directory not found: " ++ p)
      else if ¬ fs.dirs.contains dp then Except.ok ("ERROR: Not a directory: " ++ p)
      else env.listDirImpl dp

/-! ## The executor dispatch (`ToolExecutor.execute`, lines 181–216) -/

/-- The argument mapping a tool call carries, after `JSON.parse` and the
unchecked `as` casts in `execute`: each field is `none` when the key is absent
(JS `undefined`).  Non-string junk values are not distinguished from absent
ones — no claim depends on that distinction. -/
structure Args where
  path : Option String := none
  content : Option String := none
  old_string : Option String := none
  new_string : Option String := none
  command : Option String := none
  timeout : Option Nat := none
  pattern : Option String := none
  query : Option String := none
  deriving Repr, DecidableEq

/-- The empty argument set `{}` substituted for malformed argument JSON. -/
def Args.empty : Args := {}

/-- Mutable executor-visible state threaded through a run: the filesystem and
a log of the shell commands handed to `execSync` (the "process side effects"). -/
structure SideFx where
  fs : FS
  bashRuns : List String
  deriving Repr, DecidableEq

/-- The `try`/`catch` of `execute` around a *synchronous* handler: a thrown
error is converted to an `ERROR:`-prefixed string (`ERROR: ${e.message}`). -/
def catchSync (r : Except JsError String) : Except JsError String :=
  match r with
  | Except.ok s => Except.ok s
  | Except.error e => Except.ok ("ERROR: " ++ e)

/-- The same `try`/`catch`, for the synchronous handlers that also update the
filesystem (`writeFile`, `editFile`): on a throw the state is unchanged. -/
def catchSyncFx (r : Except JsError (String × FS)) (fx : SideFx) :
    Except JsError String × SideFx :=
  match r with
  | Except.ok (s, fs') => (Except.ok s, ⟨fs', fx.bashRuns⟩)
  | Except.error e => (Except.ok ("ERROR: " ++ e), fx)

/-- `ToolExecutor.execute`: dispatch on the tool name.  The surrounding
`try`/`catch` catches everything the synchronous handlers throw.  The two
`async` handlers (`globFiles`, `webSearch`) are *returned from inside the
`try` without `await`* (`return this.globFiles(pattern)`), so in JS their
promises' rejections bypass the `catch` and reject `execute`'s own promise:
those two branches pass the handler's `Except` through uncaught.  The result
pairs the dispatch outcome with the updated executor state. -/
def execute (env : ToolEnv) (cfg : ToolsConfig) (base : String) (fx : SideFx)
    (name : String) (args : Args) : Except JsError String × SideFx :=
  if name = "read_file" then (catchSync (readFile fx.fs base args.path), fx)
  else if name = "write_file" then
    catchSyncFx (writeFile fx.fs base args.path args.content) fx
  else if name = "edit_file" then
    catchSyncFx (editFile fx.fs base args.path (args.old_string.getD "undefined")
      (args.new_string.getD "undefined")) fx
  else if name = "run_bash" then
    (Except.ok (runBash env cfg args.command args.timeout),
      match args.command with
      | some c => ⟨fx.fs, fx.bashRuns ++ [c]⟩
      | none => fx)
  else if name = "glob" then (globFiles env cfg args.pattern, fx)
  else if name = "grep" then (catchSync (grepFiles env fx.fs base args.pattern args.path), fx)
  else if name = "list_dir" then (catchSync (listDir env fx.fs base args.path), fx)
  else if name = "web_search" then (env.webSearch args.query, fx)
  else (Except.ok ("ERROR: Unknown tool \x27" ++ name ++ "\x27"), fx)

/-- JS string conversion of a rejection reason (`` `ERROR: ${e}` `` in the
orchestrator's own catch): an `Error` object prints as `Error: <message>`. -/
def errToString (e : JsError) : String := "Error: " ++ e

/-- The orchestrator's per-call guard around `await toolExecutor.execute(…)`
(`src/agent.ts` lines 287–292): a rejection of the executor's promise is
caught there and becomes an `ERROR:`-prefixed string, so the loop always has a
plain string to append. -/
def agentCaughtExec (env : ToolEnv) (cfg : ToolsConfig) (base : String)
    (fx : SideFx) (name : String) (args : Args) : String × SideFx :=
  match execute env cfg base fx name args with
  | (Except.ok s, fx') => (s, fx')
  | (Except.error e, fx') => ("ERROR: " ++ errToString e, fx')

/-! ## Conversation and agent loop (`src/agent.ts`) -/

/-- Chat message roles. -/
inductive Role where
  | system
  | user
  | assistant
  | tool
  deriving Repr, DecidableEq

/-- A tool call as emitted by the model: id, function name, raw argument JSON. -/
structure ToolCall where
  id : String
  name : String
  argumentsJson : String
  deriving Repr, DecidableEq

/-- A Conversation message.  `content` is `none` for JS `null` (an assistant
turn may have null content); `tool_call_id` is set exactly on `tool` messages;
`tool_calls` is carried on the appended assistant turns. -/
structure Message where
  role : Role
  content : Option String := none
  tool_call_id : Option String := none
  tool_calls : List ToolCall := []
  deriving Repr, DecidableEq

/-- `response.choices[0]?.message`: optional text plus optional tool calls
(`tool_calls` may be absent (`none`) or an empty list — both mean "done"). -/
structure RespMessage where
  content : Option String := none
  tool_calls : Option (List ToolCall) := none
  deriving Repr, DecidableEq

/-- Outcome of one `callApiWithRetry` call as the loop sees it: a response
(whose `choices[0]?.message` may be missing), or a thrown terminal error. -/
inductive ApiOutcome where
  | success (msg : Option RespMessage)
  | failure (e : JsError)
  deriving Repr, DecidableEq

/-- `AgentConfig` fields the loop reads. -/
structure AgentCfg where
  maxIterations : Nat
  timeoutSeconds : Nat
  outputTruncateChars : Nat
  deriving Repr, DecidableEq

/-- The loop's external world: per-iteration wall-clock reading
(`Date.now() - startTime` in ms, at the top of iteration `i`), the retry-wrapped
API call's outcome for iteration `i`, `JSON.parse` of an arguments string
(`none` = malformed, caught and replaced by `{}`), and the tool oracles. -/
structure LoopEnv where
  elapsedMs : Nat → Nat
  api : Nat → ApiOutcome
  parse : String → Option Args
  tools : ToolEnv
  toolsCfg : ToolsConfig
  base : String

/-- `AgentResult` (terminal record of a run). -/
structure AgentResult where
  success : Bool
  content : String
  iterationsUsed : Nat
  toolsCalled : List String
  errorType : Option String := none
  partialProgress : Option String := none
  deriving Repr, DecidableEq

/-- One entry of `extractProgress`'s scan: assistant free text is kept
verbatim, non-`ERROR` tool results become `Tool result: <first 200 chars>...`. -/
def progressPart (m : Message) : Option String :=
  match m.role, m.content with
  | Role.assistant, some c => some c
  | Role.tool, some c =>
    if strStartsWith c "ERROR" then none
    else some ("Tool result: " ++ strTake c 200 ++ "...")
  | _, _ => none

/-- `extractProgress` (lines 98–117): collect the relevant parts, keep the last
five, join with newlines; `undefined` when nothing qualified. -/
def extractProgress (messages : List Message) : Option String :=
  let parts := messages.filterMap progressPart
  if parts.isEmpty then none
  else some (String.intercalate "\n" (parts.drop (parts.length - 5)))

/-- Mutable loop state: the Conversation, the tools-called log, executor state. -/
structure LoopState where
  messages : List Message
  toolsCalled : List String
  fx : SideFx

/-- The `for (const toolCall of message.tool_calls)` body (lines 279–300),
folded over the calls in emission order: parse the arguments (malformed JSON →
`{}`), execute under the per-call catch, record the tool name, append one
`tool` message keyed by the call id with the truncated result. -/
def processToolCalls (env : LoopEnv) (st : LoopState) (truncChars : Nat) :
    List ToolCall → LoopState
  | [] => st
  | tc :: rest =>
    let args := (env.parse tc.argumentsJson).getD Args.empty
    let (result, fx') :=
      agentCaughtExec env.tools env.toolsCfg env.base st.fx tc.name args
    processToolCalls env
      { messages := st.messages ++
          [{ role := Role.tool, content := some (strTake result truncChars),
             tool_call_id := some tc.id }],
        toolsCalled := st.toolsCalled ++ [tc.name],
        fx := fx' }
      truncChars rest

/-- Error-kind classification of a thrown API error (lines 228–233). -/
def classifyApiError (e : JsError) : String :=
  if strIncludes e "rate" then "rate_limit"
  else if strIncludes e "timeout" then "api_timeout"
  else "network_error"

/-- The iteration loop of `DeepSeekAgent.run` (lines 209–312), from the top of
iteration `iteration` with `fuel = maxIterations - iteration` iterations left.
Per iteration: deadline check → API call (failure classified and terminal) →
missing message → zero tool calls = `DONE` with `iterationsUsed = iteration+1`
→ otherwise append the assistant turn, process its tool calls in order, and
recurse.  Exhausted fuel is the `max_iterations` result.  Returns the terminal
`AgentResult` together with the final executor state. -/
def runLoop (env : LoopEnv) (cfg : AgentCfg) (st : LoopState)
    (iteration : Nat) : Nat → AgentResult × SideFx
  | 0 =>
    ({ success := false, content := "Max iterations reached",
       iterationsUsed := cfg.maxIterations, toolsCalled := st.toolsCalled,
       errorType := some "max_iterations",
       partialProgress := extractProgress st.messages }, st.fx)
  | fuel + 1 =>
    if env.elapsedMs iteration > cfg.timeoutSeconds * 1000 then
      ({ success := false, content := "Task timeout reached",
         iterationsUsed := iteration, toolsCalled := st.toolsCalled,
         errorType := some "task_timeout",
         partialProgress := extractProgress st.messages }, st.fx)
    else
      match env.api iteration with
      | ApiOutcome.failure e =>
        ({ success := false, content := errToString e,
           iterationsUsed := iteration, toolsCalled := st.toolsCalled,
           errorType := some (classifyApiError e),
           partialProgress := extractProgress st.messages }, st.fx)
      | ApiOutcome.success none =>
        ({ success := false, content := "No response from API",
           iterationsUsed := iteration, toolsCalled := st.toolsCalled,
           errorType := some "unknown" }, st.fx)
      | ApiOutcome.success (some m) =>
        match m.tool_calls with
        | none =>
          ({ success := true, content := m.content.getD "",
             iterationsUsed := iteration + 1, toolsCalled := st.toolsCalled }, st.fx)
        | some calls =>
          if calls.isEmpty then
            ({ success := true, content := m.content.getD "",
               iterationsUsed := iteration + 1, toolsCalled := st.toolsCalled }, st.fx)
          else
            let st' := processToolCalls env
              { st with messages := st.messages ++
                  [{ role := Role.assistant, content := m.content,
                     tool_calls := calls }] }
              cfg.outputTruncateChars calls
            runLoop env cfg st' (iteration + 1) fuel

/-! ## Retry/backoff policy (`DeepSeekAgent.callApiWithRetry`, lines 317–355) -/

/-- The retryability test: lower-case the message, look for any of the fixed
keywords `rate`, `429`, `timeout`, `connection` as substrings. -/
def isRetryable (msg : String) : Bool :=
  let m := toLowerStr msg
  strIncludes m "rate" || strIncludes m "429" ||
    strIncludes m "timeout" || strIncludes m "connection"

/-- Result of a retry-wrapped call: the outcome, the number of attempts
actually made, and the backoff sleeps performed (in seconds, in order). -/
structure RetryResult (α : Type) where
  result : Except JsError α
  attemptsUsed : Nat
  sleepsSeconds : List Nat
  deriving Repr

/-- The `for (attempt …)` body of `callApiWithRetry`: `api k` is the outcome of
attempt `k` (0-based).  A success returns it; a retryable failure with attempts
remaining sleeps `2^attempt` seconds and retries; anything else is thrown. -/
def retryLoop {α : Type} (api : Nat → Except JsError α) :
    Nat → Nat → List Nat → RetryResult α
  | attempt, 0, sleeps =>
    -- loop exit without return: `throw lastError ?? new Error(...)`; reachable
    -- only when called with zero attempts allowed, hence with no `lastError`.
    ⟨Except.error "API call failed after retries", attempt, sleeps⟩
  | attempt, fuel + 1, sleeps =>
    match api attempt with
    | Except.ok r => ⟨Except.ok r, attempt + 1, sleeps⟩
    | Except.error e =>
      if isRetryable e ∧ fuel ≠ 0 then
        retryLoop api (attempt + 1) fuel (sleeps ++ [2 ^ attempt])
      else ⟨Except.error e, attempt + 1, sleeps⟩

/-- `callApiWithRetry` with its default `maxRetries = 3` (no caller overrides it). -/
def callApiWithRetry {α : Type} (api : Nat → Except JsError α)
    (maxRetries : Nat := 3) : RetryResult α :=
  retryLoop api 0 maxRetries []

/-! ## Concrete fixtures for witnesses and counterexamples -/

/-- A concrete executor environment: every shell command hits its timeout kill;
the `glob` library rejects when handed `undefined` (its `TypeError`) and
matches nothing otherwise; the remaining collaborators answer trivially. -/
def envT : ToolEnv :=
  { bash := fun _ _ => BashOutcome.killed,
    glob := fun pat? =>
      match pat? with
      | none => Except.error "TypeError: pattern must be a string"
      | some _ => Except.ok [],
    webSearch := fun _ => Except.ok "results",
    grepImpl := fun _ _ => Except.ok "No matches found",
    listDirImpl := fun _ => Except.ok "(empty directory)" }

/-- A concrete filesystem: the sandbox directory `/base` containing `a.txt`,
and a *sibling* directory `/base2` — outside the sandbox — holding a secret. -/
def fxT : SideFx :=
  ⟨⟨[("/base2/secret.txt", "s3cret"), ("/base/a.txt", "hello world hello")],
    ["/base", "/base2"]⟩, []⟩

/-- The repository's default tool configuration (`config.ts` `DEFAULT_CONFIG`):
bash default timeout 120 s, max 600 s, glob/grep caps 100. -/
def cfg0 : ToolsConfig := ⟨⟨120, 600⟩, 100, 100⟩

/-- The repository's default agent configuration: 50 iterations, 300 s
deadline, 50,000-character tool-output truncation. -/
def agentCfg0 : AgentCfg := ⟨50, 300, 50000⟩

/-- A `JSON.parse` oracle on which every arguments string is malformed. -/
def parseNone : String → Option Args := fun _ => none

/-- A concrete loop environment: no elapsed time, a model that always answers
with final text and no tool calls, malformed-JSON parsing throughout. -/
def loopEnvT : LoopEnv :=
  { elapsedMs := fun _ => 0,
    api := fun _ => ApiOutcome.success (some { content := some "done", tool_calls := none }),
    parse := parseNone,
    tools := envT,
    toolsCfg := cfg0,
    base := "/base" }

/-- An initial loop state: empty conversation (the system/user seed messages
are irrelevant to every theorem below), nothing called, filesystem `fxT`. -/
def st0 : LoopState := ⟨[], [], fxT⟩

/-- A tool call whose arguments string is not valid JSON. -/
def tcT : ToolCall := ⟨"call_1", "read_file", "not json"⟩

/-- An API-attempt oracle that fails every attempt with an HTTP 429 error. -/
def apiAlways429 : Nat → Except JsError Nat :=
  fun _ => Except.error "HTTP 429 Too Many Requests"

/-! ## Helper lemmas -/

/-- `catchSync` always resolves. -/
theorem catchSync_exists (r : Except JsError String) :
    ∃ s, catchSync r = Except.ok s := by
  cases r with
  | ok s => exact ⟨s, rfl⟩
  | error e => exact ⟨"ERROR: " ++ e, rfl⟩

/-- `catchSyncFx` always resolves. -/
theorem catchSyncFx_exists (r : Except JsError (String × FS)) (fx : SideFx) :
    ∃ s, (catchSyncFx r fx).1 = Except.ok s := by
  cases r with
  | ok p => exact ⟨p.1, rfl⟩
  | error e => exact ⟨"ERROR: " ++ e, rfl⟩

/-- The orchestrator's per-call catch: a rejection of `execute`'s promise is
converted to the `ERROR:`-prefixed string of the JS-stringified reason. -/
theorem agentCaughtExec_of_error (env : ToolEnv) (cfg : ToolsConfig) (base : String)
    (fx : SideFx) (name : String) (args : Args) (e : JsError)
    (h : (execute env cfg base fx name args).1 = Except.error e) :
    (agentCaughtExec env cfg base fx name args).1 = "ERROR: " ++ errToString e := by
  unfold agentCaughtExec
  rcases hex : execute env cfg base fx name args with ⟨r, fx2⟩
  rw [hex] at h
  cases r with
  | ok s => simp at h
  | error e2 =>
    cases h
    rfl

/-! ## C1, C2 — the sandbox boundary -/

/-- C1: the claim states that every tool operation on a target path resolving
outside the sandbox base fails with a `PathEscape` error and observes nothing
outside the boundary.  The code violates it: with sandbox base `/base`, the
target `/base2/secret.txt` canonicalises *outside* the sandbox (it is not
within `/base` by path segments), yet `validatePath` accepts it — the naive
`startsWith` prefix check is satisfied by the sibling directory `/base2` — and
`read_file` goes on to observe the outside file's contents. -/
theorem c1_sandbox_escape_not_blocked :
    segmentWithin "/base" "/base2/secret.txt" = false ∧
    validatePath "/base2/secret.txt" "/base" = Except.ok "/base2/secret.txt" ∧
    execute envT cfg0 "/base" fxT "read_file" { path := some "/base2/secret.txt" } =
      (Except.ok "s3cret", fxT) :=
  ⟨rfl, rfl, rfl⟩

/-- C2: the claim states the guard's boundary check is path-segment-aware and
rejects a sibling directory whose name merely string-extends the base.  The
code violates it: `validatePath` is the naive string-prefix comparison
`resolved.startsWith(baseResolved)`, so the target `/base2` is *accepted*
against base `/base` even though it does not lie within `/base` by whole path
segments. -/
theorem c2_prefix_check_not_segment_aware :
    validatePath "/base2" "/base" = Except.ok "/base2" ∧
    segmentWithin "/base" "/base2" = false :=
  ⟨rfl, rfl⟩

/-! ## C3 — exceptions at the dispatch boundary -/

/-- C3 counterexample: the claim states `execute` never lets an exception or
rejected promise escape to its caller for any tool and arguments.  False: the
`glob` branch returns the async handler's promise from inside the `try`
without `await`, so its rejection (here: `glob(undefined)`'s `TypeError`,
reached because the argument set is empty) bypasses the `catch` and escapes
`execute` as a rejection rather than an `ERROR:`-prefixed string. -/
theorem c3_async_rejection_escapes :
    (execute envT cfg0 "/base" fxT "glob" Args.empty).1 =
      Except.error "TypeError: pattern must be a string" :=
  rfl

/-- C3 (amended): every failure in a *synchronous* tool handler — and every
unknown tool name — is caught at the dispatch boundary and converted to an
`ERROR:`-prefixed string, so `execute` resolves for every tool other than the
async `glob` and `web_search`; a rejection that does escape `execute` is
caught by the orchestrator's per-call guard and converted to an
`ERROR:`-prefixed string there, so no exception reaches the run. -/
theorem c3_amended_sync_failures_caught (env : ToolEnv) (cfg : ToolsConfig)
    (base : String) (fx : SideFx) (name : String) (args : Args) :
    (name ≠ "glob" → name ≠ "web_search" →
      ∃ s, (execute env cfg base fx name args).1 = Except.ok s) ∧
    (∀ e, (execute env cfg base fx name args).1 = Except.error e →
      (agentCaughtExec env cfg base fx name args).1 = "ERROR: " ++ errToString e) := by
  constructor
  · intro hg hw
    unfold execute
    split_ifs <;>
      first
      | exact absurd (by assumption) hg
      | exact absurd (by assumption) hw
      | exact catchSync_exists _
      | exact catchSyncFx_exists _ _
      | exact ⟨_, rfl⟩
  · intro e h
    exact agentCaughtExec_of_error env cfg base fx name args e h

/-- C3 witness: the amended theorem applied at a concrete synchronous tool. -/
theorem c3_amended_witness :
    ∃ s, (execute envT cfg0 "/base" fxT "read_file" Args.empty).1 = Except.ok s :=
  (c3_amended_sync_failures_caught envT cfg0 "/base" fxT "read_file" Args.empty).1
    (by decide) (by decide)

/-! ## C6 — run_bash effective timeout and timeout message -/

/-- C6 counterexample: the claim states the timeout result is exactly
`ERROR: Command timed out after Ns`.  The code's string is
`ERROR: Command timed out after N seconds`: at the default configuration, a
killed command with no requested timeout yields the ` seconds` form, which
differs from the claimed `120s` form. -/
theorem c6_timeout_message_not_exact :
    runBash envT cfg0 (some "sleep 200") none =
      "ERROR: Command timed out after 120 seconds" ∧
    runBash envT cfg0 (some "sleep 200") none ≠
      "ERROR: Command timed out after 120s" :=
  ⟨rfl, by decide⟩

/-- C6 (amended): for every `run_bash` invocation the effective timeout is
`min(requested ?? configured default, configured max)` seconds, and when the
command is killed by that timeout the result is exactly
`ERROR: Command timed out after N seconds` for the effective timeout `N`. -/
theorem c6_effective_timeout_and_message (env : ToolEnv) (cfg : ToolsConfig)
    (cmd : String) (treq : Option Nat) (eff : Nat)
    (heff : eff = Nat.min (treq.getD cfg.bash.defaultTimeout) cfg.bash.maxTimeout)
    (hk : env.bash cmd eff = BashOutcome.killed) :
    runBash env cfg (some cmd) treq =
      "ERROR: Command timed out after " ++ toString eff ++ " seconds" := by
  subst heff
  unfold runBash
  simp only [hk]

/-- C6 witness: the amended theorem at the default configuration. -/
theorem c6_witness :
    runBash envT cfg0 (some "sleep 200") (some 1000) =
      "ERROR: Command timed out after 600 seconds" :=
  c6_effective_timeout_and_message envT cfg0 "sleep 200" (some 1000) 600 rfl rfl

/-! ## C10 — unknown tool names -/

/-- C10: for every tool name outside the eight supported ones, `execute`
returns `ERROR: Unknown tool '<name>'` and leaves the filesystem and the
process log untouched. -/
theorem c10_unknown_tool (env : ToolEnv) (cfg : ToolsConfig) (base : String)
    (fx : SideFx) (args : Args) (name : String)
    (h : name ∉ ["read_file", "write_file", "edit_file", "run_bash", "glob",
      "grep", "list_dir", "web_search"]) :
    execute env cfg base fx name args =
      (Except.ok ("ERROR: Unknown tool \x27" ++ name ++ "\x27"), fx) := by
  simp only [List.mem_cons, List.not_mem_nil, or_false, not_or] at h
  obtain ⟨h1, h2, h3, h4, h5, h6, h7, h8⟩ := h
  unfold execute
  simp [h1, h2, h3, h4, h5, h6, h7, h8]

/-- C10 witness: a concrete unsupported name. -/
theorem c10_witness :
    execute envT cfg0 "/base" fxT "frobnicate" Args.empty =
      (Except.ok ("ERROR: Unknown tool \x27frobnicate\x27"), fxT) :=
  c10_unknown_tool envT cfg0 "/base" fxT Args.empty "frobnicate" (by decide)

/-! ## C7 — edit_file -/

/-- A reported match index is a real match: the pattern occurs at it. -/
theorem fmi_isPrefix (pat : List Char) :
    ∀ (s : List Char) (i : Nat), firstMatchIdx pat s = some i →
      pat.isPrefixOf (s.drop i) = true := by
  intro s
  induction s with
  | nil =>
    intro i h
    unfold firstMatchIdx at h
    split at h
    · cases h
      simpa using ‹pat.isPrefixOf ([] : List Char) = true›
    · cases h
  | cons c t ih =>
    intro i h
    unfold firstMatchIdx at h
    split at h
    · cases h
      simpa using ‹pat.isPrefixOf (c :: t) = true›
    · rcases Option.map_eq_some'.mp h with ⟨i', hi', rfl⟩
      simpa using ih i' hi'

/-- The reported match index is the *leftmost* one: no earlier position
matches. -/
theorem fmi_least (pat : List Char) :
    ∀ (s : List Char) (i : Nat), firstMatchIdx pat s = some i →
      ∀ j, j < i → pat.isPrefixOf (s.drop j) = false := by
  intro s
  induction s with
  | nil =>
    intro i h j hj
    unfold firstMatchIdx at h
    split at h
    · cases h; omega
    · cases h
  | cons c t ih =>
    intro i h j hj
    unfold firstMatchIdx at h
    split at h
    · cases h; omega
    · rcases Option.map_eq_some'.mp h with ⟨i', hi', rfl⟩
      cases j with
      | zero =>
        show pat.isPrefixOf (c :: t) = false
        cases hb : pat.isPrefixOf (c :: t) with
        | false => rfl
        | true => exact absurd hb ‹¬ pat.isPrefixOf (c :: t) = true›
      | succ j' =>
        simpa using ih i' hi' j' (by omega)

/-- Updating a path and reading it back yields the written contents. -/
theorem lookupFile_setFile_self (l : List (String × String)) (k v : String) :
    lookupFile (setFile l k v) k = some v := by
  induction l with
  | nil => simp [setFile, lookupFile]
  | cons kv t ih =>
    rcases kv with ⟨k', v'⟩
    by_cases hk : k' = k
    · simp [setFile, hk, lookupFile]
    · simp [setFile, hk, lookupFile, ih]

/-- A replacement text containing no `$` is inserted verbatim by
`GetSubstitution`. -/
theorem substRepl_no_dollar (matched before after : List Char) :
    ∀ rep, '$' ∉ rep → substRepl matched before after rep = rep := by
  intro rep
  induction rep with
  | nil => intro _; rfl
  | cons c t ih =>
    intro h
    have hc : c ≠ '$' := fun hc => h (hc ▸ List.mem_cons_self c t)
    have ht : '$' ∉ t := fun hm => h (List.mem_cons_of_mem c hm)
    show substRepl matched before after (c :: t) = c :: t
    unfold substRepl
    rw [if_neg hc, ih ht]

/-- C7 counterexample: the claim states `edit_file` replaces the first
occurrence of `old_string` *with `new_string`*, for every `new_string`.
False: JS `String.replace` applies `$`-substitution to the replacement even
for string patterns, so editing `hello world hello` by
`old = world, new = $&!` writes `hello world! hello` (`$&` expands to the
matched `world`), not the claimed `hello $&! hello`. -/
theorem c7_replacement_dollar_counterexample :
    strReplaceFirst "hello world hello" "world" "$&!" = "hello world! hello" ∧
    strReplaceFirst "hello world hello" "world" "$&!" ≠ "hello $&! hello" ∧
    editFile ⟨[("/base/a.txt", "hello world hello")], []⟩ "/base"
        (some "a.txt") "world" "$&!" =
      Except.ok ("OK", ⟨[("/base/a.txt", "hello world! hello")], []⟩) :=
  ⟨rfl, by decide, rfl⟩

/-- C7 (amended): on an existing file, `edit_file` (i) returns
`ERROR: old_string not found in file` and leaves the filesystem unchanged when
`old` does not occur; (ii) when `old` occurs, replaces exactly the *first*
(leftmost) occurrence — the written contents are the prefix before the match,
then `new` *after ECMAScript `$`-substitution* (`$$`, `$&`, backquote and
quote forms; verbatim `new` whenever `new` contains no `$`), then the suffix
after the match; the match is real and no earlier position matches — and
returns `OK`; (iii) when the first replacement removes the only match (and
`old ≠ new`), the identical edit applied a second time yields
`ERROR: old_string not found in file`. -/
theorem c7_edit_file_first_occurrence_amended
    (fs : FS) (base p fp c old new : String)
    (hv : validatePath p base = Except.ok fp)
    (hf : lookupFile fs.files fp = some c)
    (hd : fs.dirs.contains fp = false) :
    (strIncludes c old = false →
      editFile fs base (some p) old new =
        Except.ok ("ERROR: old_string not found in file", fs)) ∧
    (∀ i, firstMatchIdx old.data c.data = some i →
      editFile fs base (some p) old new =
        Except.ok ("OK", ⟨setFile fs.files fp (strReplaceFirst c old new), fs.dirs⟩) ∧
      (strReplaceFirst c old new).data =
        c.data.take i ++
          substRepl old.data (c.data.take i) (c.data.drop (i + old.data.length))
            new.data ++
          c.data.drop (i + old.data.length) ∧
      ('$' ∉ new.data →
        (strReplaceFirst c old new).data =
          c.data.take i ++ new.data ++ c.data.drop (i + old.data.length)) ∧
      old.data.isPrefixOf (c.data.drop i) = true ∧
      (∀ j, j < i → old.data.isPrefixOf (c.data.drop j) = false)) ∧
    (old ≠ new →
      strIncludes c old = true →
      strIncludes (strReplaceFirst c old new) old = false →
      editFile ⟨setFile fs.files fp (strReplaceFirst c old new), fs.dirs⟩ base
          (some p) old new =
        Except.ok ("ERROR: old_string not found in file",
          ⟨setFile fs.files fp (strReplaceFirst c old new), fs.dirs⟩)) := by
  have hex : existsS fs fp = true := by
    simp [existsS, hf]
  have hd' : fp ∉ fs.dirs := by
    simpa using hd
  have hbind : ∀ (f : String → Except JsError (String × FS)),
      (Except.ok fp : Except JsError String).bind f = f fp := fun _ => rfl
  refine ⟨?_, ?_, ?_⟩
  · intro habs
    simp [editFile, hv, hbind, hex, hd', hf, habs]
  · intro i hi
    have hinc : strIncludes c old = true := by
      simp [strIncludes, hi]
    refine ⟨?_, ?_, ?_, ?_, ?_⟩
    · simp [editFile, hv, hbind, hex, hd', hf, hinc]
    · simp [strReplaceFirst, hi]
    · intro hnd
      have hsub := substRepl_no_dollar old.data (c.data.take i)
        (c.data.drop (i + old.length)) new.data hnd
      simp [strReplaceFirst, hi, hsub]
    · exact fmi_isPrefix old.data c.data i hi
    · exact fmi_least old.data c.data i hi
  · intro _ _ habs2
    have hf2 : lookupFile (setFile fs.files fp (strReplaceFirst c old new)) fp =
        some (strReplaceFirst c old new) :=
      lookupFile_setFile_self fs.files fp (strReplaceFirst c old new)
    have hex2 : existsS ⟨setFile fs.files fp (strReplaceFirst c old new), fs.dirs⟩ fp = true := by
      simp [existsS, hf2]
    simp [editFile, hv, hbind, hex2, hd', hf2, habs2]

/-- C7 witness: editing `hello world hello` by `world → mars` succeeds once and
then fails with `old_string not found` on the identical second edit. -/
theorem c7_witness :
    editFile ⟨setFile fxT.fs.files "/base/a.txt"
        (strReplaceFirst "hello world hello" "world" "mars"), fxT.fs.dirs⟩ "/base"
        (some "a.txt") "world" "mars" =
      Except.ok ("ERROR: old_string not found in file",
        ⟨setFile fxT.fs.files "/base/a.txt"
          (strReplaceFirst "hello world hello" "world" "mars"), fxT.fs.dirs⟩) :=
  (c7_edit_file_first_occurrence_amended fxT.fs "/base" "a.txt" "/base/a.txt"
      "hello world hello" "world" "mars" rfl rfl rfl).2.2
    (by decide) (by decide) (by decide)

/-! ## C4, C9 — tool-call processing; C5 — termination on zero tool calls -/

/-- C4: processing the tool calls of one assistant turn appends to the
Conversation — never reorders or drops existing messages — exactly one `tool`
message per call, in the order the calls were emitted, each keyed by its
originating call id, regardless of each call's success or failure (the
appended content is unconstrained).  Execution is strictly sequential by
construction: the state each call runs in is the state the previous call
left. -/
theorem c4_tool_results_in_call_order (env : LoopEnv) (truncChars : Nat) :
    ∀ (calls : List ToolCall) (st : LoopState),
      ∃ delta,
        (processToolCalls env st truncChars calls).messages = st.messages ++ delta ∧
        delta.map (fun m => (m.role, m.tool_call_id)) =
          calls.map (fun c => (Role.tool, some c.id)) := by
  intro calls
  induction calls with
  | nil =>
    intro st
    exact ⟨[], by simp [processToolCalls], by simp⟩
  | cons tc rest ih =>
    intro st
    rcases hae : agentCaughtExec env.tools env.toolsCfg env.base st.fx tc.name
        ((env.parse tc.argumentsJson).getD Args.empty) with ⟨res, fx'⟩
    have hstep : processToolCalls env st truncChars (tc :: rest) =
        processToolCalls env
          { messages := st.messages ++
              [{ role := Role.tool, content := some (strTake res truncChars),
                 tool_call_id := some tc.id }],
            toolsCalled := st.toolsCalled ++ [tc.name],
            fx := fx' }
          truncChars rest := by
      simp [processToolCalls, hae]
    obtain ⟨delta', h1, h2⟩ := ih
      { messages := st.messages ++
          [{ role := Role.tool, content := some (strTake res truncChars),
             tool_call_id := some tc.id }],
        toolsCalled := st.toolsCalled ++ [tc.name],
        fx := fx' }
    refine ⟨{ role := Role.tool, content := some (strTake res truncChars),
              tool_call_id := some tc.id } :: delta', ?_, ?_⟩
    · rw [hstep, h1]
      simp
    · simp [h2]

/-- C9: a tool call whose arguments string fails to parse as JSON is not
fatal: the orchestrator executes the tool anyway with the empty argument set,
appends its (truncated) result to the Conversation as a `tool` message keyed
by the call id, and continues with the remaining calls of the turn. -/
theorem c9_malformed_args_empty_set (env : LoopEnv) (st : LoopState)
    (truncChars : Nat) (tc : ToolCall) (rest : List ToolCall)
    (hbad : env.parse tc.argumentsJson = none) :
    processToolCalls env st truncChars (tc :: rest) =
      processToolCalls env
        { messages := st.messages ++
            [{ role := Role.tool,
               content := some (strTake (agentCaughtExec env.tools env.toolsCfg
                 env.base st.fx tc.name Args.empty).1 truncChars),
               tool_call_id := some tc.id }],
          toolsCalled := st.toolsCalled ++ [tc.name],
          fx := (agentCaughtExec env.tools env.toolsCfg env.base st.fx
            tc.name Args.empty).2 }
        truncChars rest := by
  rcases hae : agentCaughtExec env.tools env.toolsCfg env.base st.fx tc.name
      Args.empty with ⟨res, fx'⟩
  simp [processToolCalls, hbad, hae]

/-- C9 witness: a malformed-JSON `read_file` call still executes (with empty
arguments) and appends its keyed result. -/
theorem c9_witness :
    processToolCalls loopEnvT st0 50000 [tcT] =
      { messages := [{ role := Role.tool,
                       content := some (strTake (agentCaughtExec loopEnvT.tools
                         loopEnvT.toolsCfg loopEnvT.base st0.fx tcT.name
                         Args.empty).1 50000),
                       tool_call_id := some tcT.id }],
        toolsCalled := ["read_file"],
        fx := (agentCaughtExec loopEnvT.tools loopEnvT.toolsCfg loopEnvT.base st0.fx
          tcT.name Args.empty).2 } :=
  c9_malformed_args_empty_set loopEnvT st0 50000 tcT [] rfl

/-- C5: if the loop reaches iteration `i` (with fuel remaining and the
deadline not exceeded) and the model's response carries zero tool calls
(absent or empty list), `run` terminates successfully with the response's text
as the final answer and `iterationsUsed = i + 1` (the 1-based iteration
number), and the Tool Executor is not invoked on that iteration: the
tools-called log and the executor state are returned unchanged. -/
theorem c5_done_on_zero_tool_calls (env : LoopEnv) (cfg : AgentCfg)
    (st : LoopState) (i fuel : Nat) (m : RespMessage)
    (htime : ¬ env.elapsedMs i > cfg.timeoutSeconds * 1000)
    (hapi : env.api i = ApiOutcome.success (some m))
    (hnone : m.tool_calls = none ∨ m.tool_calls = some []) :
    runLoop env cfg st i (fuel + 1) =
      ({ success := true, content := m.content.getD "",
         iterationsUsed := i + 1, toolsCalled := st.toolsCalled }, st.fx) := by
  rcases hnone with h | h
  · simp [runLoop, htime, hapi, h]
  · simp [runLoop, htime, hapi, h]

/-- C5 witness: with a model that immediately answers `done` and no elapsed
time, the loop terminates `DONE` on iteration 1 with untouched executor state. -/
theorem c5_witness :
    runLoop loopEnvT agentCfg0 st0 0 50 =
      ({ success := true, content := "done", iterationsUsed := 1,
         toolsCalled := [] }, fxT) :=
  c5_done_on_zero_tool_calls loopEnvT agentCfg0 st0 0 49
    { content := some "done", tool_calls := none }
    (by decide) rfl (Or.inl rfl)

/-! ## C8 — retry/backoff policy -/

/-- C8: `callApiWithRetry` makes between 1 and 3 attempts; every attempt
before the last failed with a retryable error (the case-insensitive
rate/429/timeout/connection keyword test) — i.e. an error is retried iff it is
retryable and attempts remain; exactly one sleep of `2^attempt` seconds
precedes each retry, in order; and the call's outcome is the last attempt's
outcome — a success is returned, while a terminal error is propagated exactly
when it is non-retryable or the 3-attempt budget is exhausted. -/
theorem c8_retry_policy {α : Type} (api : Nat → Except JsError α)
    (r : RetryResult α) (hr : r = callApiWithRetry api 3) :
    (1 ≤ r.attemptsUsed ∧ r.attemptsUsed ≤ 3) ∧
    (∀ k, k + 1 < r.attemptsUsed →
      ∃ e, api k = Except.error e ∧ isRetryable e = true) ∧
    r.sleepsSeconds = (List.range (r.attemptsUsed - 1)).map (fun k => 2 ^ k) ∧
    (∀ x, r.result = Except.ok x → api (r.attemptsUsed - 1) = Except.ok x) ∧
    (∀ e, r.result = Except.error e →
      api (r.attemptsUsed - 1) = Except.error e ∧
      (isRetryable e = false ∨ r.attemptsUsed = 3)) := by
  subst hr
  rcases h0 : api 0 with e0 | x0
  · by_cases hr0 : isRetryable e0 = true
    · rcases h1 : api 1 with e1 | x1
      · by_cases hr1 : isRetryable e1 = true
        · rcases h2 : api 2 with e2 | x2
          · have hres : callApiWithRetry api 3 =
                ⟨Except.error e2, 3, [1, 2]⟩ := by
              simp [callApiWithRetry, retryLoop, h0, h1, h2, hr0, hr1]
            rw [hres]
            refine ⟨⟨by norm_num, by norm_num⟩, ?_, by norm_num [List.range_succ], ?_, ?_⟩
            · intro k hk
              simp only at hk
              rcases k with _ | _ | k
              · exact ⟨e0, h0, hr0⟩
              · exact ⟨e1, h1, hr1⟩
              · exact absurd hk (by omega)
            · intro x hx
              simp at hx
            · intro e he
              simp only at he
              cases he
              exact ⟨h2, Or.inr rfl⟩
          · have hres : callApiWithRetry api 3 =
                ⟨Except.ok x2, 3, [1, 2]⟩ := by
              simp [callApiWithRetry, retryLoop, h0, h1, h2, hr0, hr1]
            rw [hres]
            refine ⟨⟨by norm_num, by norm_num⟩, ?_, by norm_num [List.range_succ], ?_, ?_⟩
            · intro k hk
              simp only at hk
              rcases k with _ | _ | k
              · exact ⟨e0, h0, hr0⟩
              · exact ⟨e1, h1, hr1⟩
              · exact absurd hk (by omega)
            · intro x hx
              simp only at hx
              cases hx
              exact h2
            · intro e he
              simp at he
        · have hres : callApiWithRetry api 3 =
              ⟨Except.error e1, 2, [1]⟩ := by
            simp [callApiWithRetry, retryLoop, h0, h1, hr0, hr1]
          rw [hres]
          refine ⟨⟨by norm_num, by norm_num⟩, ?_, by norm_num [List.range_succ], ?_, ?_⟩
          · intro k hk
            simp only at hk
            rcases k with _ | k
            · exact ⟨e0, h0, hr0⟩
            · exact absurd hk (by omega)
          · intro x hx
            simp at hx
          · intro e he
            simp only at he
            cases he
            exact ⟨h1, Or.inl (by simpa using hr1)⟩
      · have hres : callApiWithRetry api 3 = ⟨Except.ok x1, 2, [1]⟩ := by
          simp [callApiWithRetry, retryLoop, h0, h1, hr0]
        rw [hres]
        refine ⟨⟨by norm_num, by norm_num⟩, ?_, by norm_num [List.range_succ], ?_, ?_⟩
        · intro k hk
          simp only at hk
          rcases k with _ | k
          · exact ⟨e0, h0, hr0⟩
          · exact absurd hk (by omega)
        · intro x hx
          simp only at hx
          cases hx
          exact h1
        · intro e he
          simp at he
    · have hres : callApiWithRetry api 3 =
          ⟨Except.error e0, 1, []⟩ := by
        simp [callApiWithRetry, retryLoop, h0, hr0]
      rw [hres]
      refine ⟨⟨by norm_num, by norm_num⟩, ?_, by norm_num [List.range_succ], ?_, ?_⟩
      · intro k hk
        simp only at hk
        exact absurd hk (by omega)
      · intro x hx
        simp at hx
      · intro e he
        simp only at he
        cases he
        exact ⟨h0, Or.inl (by simpa using hr0)⟩
  · have hres : callApiWithRetry api 3 = ⟨Except.ok x0, 1, []⟩ := by
      simp [callApiWithRetry, retryLoop, h0]
    rw [hres]
    refine ⟨⟨by norm_num, by norm_num⟩, ?_, by norm_num [List.range_succ], ?_, ?_⟩
    · intro k hk
      simp only at hk
      exact absurd hk (by omega)
    · intro x hx
      simp only at hx
      cases hx
      exact h0
    · intro e he
      simp at he

/-- C8 witness: with every attempt failing as HTTP 429, the sleep schedule is
the exponential-backoff schedule for the attempts made. -/
theorem c8_witness :
    (callApiWithRetry apiAlways429 3).sleepsSeconds =
      (List.range ((callApiWithRetry apiAlways429 3).attemptsUsed - 1)).map
        (fun k => 2 ^ k) :=
  (c8_retry_policy apiAlways429 (callApiWithRetry apiAlways429 3) rfl).2.2.1

end DeepSeekMCP
